import Mathlib

/-!
Verification of the reddit-stock-momentum specification against its code.

The repository ships the React/TypeScript frontend (`frontend/src/...`); the
Python analytics backend (`app/stock_detector.py`, `app/trend_analyzer.py`,
`app/sentiment_analyzer.py`) is declared in the setup scripts but its source is
not part of this tree, so the Ticker Detector, Mention Aggregator and
Trend/Momentum Engine are modelled from the spec (each such definition is
marked `Modelled from the spec:`).  Frontend functions are embedded directly
from their TypeScript source.  JavaScript numbers are embedded as `ℚ`.
-/

/-! ## Frontend embeddings -/

/-- Embeds `formatSentiment` from `frontend/src/utils/api.ts` lines 151-155:
`if (sentiment > 0.1) return 'Positive'; if (sentiment < -0.1) return
'Negative'; return 'Neutral';`.  The literal `0.1` is the exact rational
`1/10`. -/
def formatSentiment (sentiment : ℚ) : String :=
  if sentiment > 1/10 then "Positive"
  else if sentiment < -(1/10) then "Negative"
  else "Neutral"

/-- Embeds the `TimeRange` union type from `frontend/src/types/index.ts`
line 142: `'1d' | '3d' | '7d' | '30d'`. -/
inductive TimeRange where
  | d1
  | d3
  | d7
  | d30
deriving DecidableEq

/-- Entry shape of the `timeRanges` array in
`frontend/src/components/TimeRangeSelector.tsx` lines 10-15. -/
structure TimeRangeOption where
  value : TimeRange
  label : String
  days : ℕ
deriving DecidableEq

/-- Embeds the `timeRanges` array from
`frontend/src/components/TimeRangeSelector.tsx` lines 10-15. -/
def timeRanges : List TimeRangeOption :=
  [⟨TimeRange.d1, "1 Day", 1⟩,
   ⟨TimeRange.d3, "3 Days", 3⟩,
   ⟨TimeRange.d7, "7 Days", 7⟩,
   ⟨TimeRange.d30, "30 Days", 30⟩]

/-- Embeds `timeRangeToDays` from
`frontend/src/components/TimeRangeSelector.tsx` lines 37-40: the object map
`{ '1d': 1, '3d': 3, '7d': 7, '30d': 30 }` indexed by the range. -/
def timeRangeToDays : TimeRange → ℕ
  | TimeRange.d1 => 1
  | TimeRange.d3 => 3
  | TimeRange.d7 => 7
  | TimeRange.d30 => 30

/-- Error body of an HTTP response as far as `ApiClient.request` inspects it:
the optional `detail` field of the parsed JSON object (the code reads
`errorData.detail`; we model string-valued details). -/
structure JsonErrorBody where
  detail : Option String
deriving DecidableEq

/-- An HTTP `Response` as consumed by `ApiClient.request`
(`frontend/src/utils/api.ts` lines 15-32): `ok`, `status`, `statusText`, and
the result of `response.json()` — `none` when the body is not valid JSON, in
which case `response.json()` rejects. -/
structure HttpResponse where
  ok : Bool
  status : ℕ
  statusText : String
  jsonBody : Option JsonErrorBody
deriving DecidableEq

/-- The template literal `HTTP &#36;{response.status}: &#36;{response.statusText}`
from `frontend/src/utils/api.ts` line 28. -/
def httpErrorText (r : HttpResponse) : String :=
  "HTTP " ++ toString r.status ++ ": " ++ r.statusText

/-- Embeds `ApiClient.request` from `frontend/src/utils/api.ts` lines 15-32.
When `response.ok` fails, the code runs
`const errorData = await response.json().catch(() => ({}))` and then
`throw new Error(errorData.detail || ...)`; JavaScript `||` falls through to
the HTTP text when `detail` is absent or an empty (falsy) string.  When
`response.ok` holds it returns `response.json()`, whose rejection on a
non-JSON body propagates as a thrown parse error. -/
def ApiClient.request (r : HttpResponse) : Except String JsonErrorBody :=
  if r.ok then
    match r.jsonBody with
    | some body => Except.ok body
    | none => Except.error "Unexpected token in JSON"
  else
    match (r.jsonBody.getD { detail := none }).detail with
    | some d => if d = "" then Except.error (httpErrorText r) else Except.error d
    | none => Except.error (httpErrorText r)

/-! ## Ticker Detector (modelled from the spec, section 4.2) -/

/-- Modelled from the spec: the configuration surface the Detector consults —
denylist, finance-context keywords, the Registry's company-name aliases (each
alias, in lower case, mapped to its symbol's ticker, per spec section 4.1),
the fixed word window, and the acceptance threshold (default 0.5).  The
backend `app/stock_detector.py` is not in the tree. -/
structure DetectorConfig where
  denylist : List String
  keywords : List String
  aliases : List (String × String)
  window : ℕ
  threshold : ℚ

/-- Modelled from the spec: the finance-context keyword examples of
section 4.2 step 2. -/
def financeKeywords : List String :=
  ["stock", "shares", "calls", "puts", "earnings", "buy", "sell", "position"]

/-- Modelled from the spec: a default Detector configuration (threshold 0.5,
window ±10 tokens) with a denylist of common-word tickers. -/
def defaultConfig : DetectorConfig :=
  ⟨["A", "ALL", "ARE", "BE", "CAN", "DD", "GO", "I", "IT", "ON", "OR", "SO"],
   financeKeywords,
   [("apple", "AAPL"), ("tesla", "TSLA"), ("gamestop", "GME"), ("allstate", "ALL")],
   10, 1/2⟩

/-- Case folding of a token for the case-insensitive cue comparison. -/
def lowercase (s : String) : String :=
  String.mk (s.toList.map Char.toLower)

/-- Modelled from the spec: a *cashtag* token is a `$` immediately followed by
1-5 letters; the ticker is the letters, normalised to upper case. -/
def cashtagTicker? (tok : String) : Option String :=
  match tok.toList with
  | '$' :: rest =>
      if 0 < rest.length ∧ rest.length ≤ 5 ∧ rest.all Char.isAlpha then
        some (String.mk (rest.map Char.toUpper))
      else none
  | _ => none

/-- Modelled from the spec: a *bare* token is a standalone uppercase sequence
of 1-5 letters (detection is case-sensitive for bare tokens). -/
def bareTicker? (tok : String) : Option String :=
  if 0 < tok.length ∧ tok.length ≤ 5 ∧ tok.toList.all Char.isUpper then
    some tok
  else none

/-- Modelled from the spec: whether a finance-context keyword occurs within
the fixed word window around position `i` (case-insensitive comparison). -/
def keywordNearby (cfg : DetectorConfig) (tokens : List String) (i : ℕ) : Bool :=
  (List.range tokens.length).any fun j =>
    decide (i - j ≤ cfg.window ∧ j - i ≤ cfg.window) &&
      cfg.keywords.contains (lowercase (tokens.getD j ""))

/-- Modelled from the spec: whether a company-name alias occurs within the
fixed word window around position `i` (case-insensitive comparison). -/
def aliasNearby (cfg : DetectorConfig) (tokens : List String) (i : ℕ) : Bool :=
  (List.range tokens.length).any fun j =>
    decide (i - j ≤ cfg.window ∧ j - i ≤ cfg.window) &&
      cfg.aliases.any fun p => decide (p.1 = lowercase (tokens.getD j ""))

/-- Modelled from the spec: whether a finance-context keyword or a
company-name alias occurs within the fixed word window around position `i` —
the cue that rescues a denylisted bare ticker. -/
def cueNearby (cfg : DetectorConfig) (tokens : List String) (i : ℕ) : Bool :=
  keywordNearby cfg tokens i || aliasNearby cfg tokens i

/-- Modelled from the spec: resolve a free-text token to a ticker through the
Registry's alias table (case-insensitive), per spec section 4.2 step 3. -/
def aliasTicker? (cfg : DetectorConfig) (tok : String) : Option String :=
  (cfg.aliases.find? fun p => decide (p.1 = lowercase tok)).map Prod.snd

/-- Modelled from the spec: classify one token.  Cashtags are always emitted
at confidence 0.95 regardless of the denylist; bare tickers that are
denylisted require a nearby cue and are dropped without one; a cue raises the
confidence of any bare ticker; a free-text (non-all-caps) token matching a
company-name alias resolves through the Registry and is emitted at medium
confidence when a finance-context keyword lies in the same window, and is
discarded otherwise (spec section 4.2 step 3). -/
def detectToken (cfg : DetectorConfig) (tokens : List String) (i : ℕ)
    (tok : String) : Option (String × ℚ) :=
  match cashtagTicker? tok with
  | some t => some (t, 95/100)
  | none =>
    match bareTicker? tok with
    | some t =>
      if t ∈ cfg.denylist then
        if cueNearby cfg tokens i then some (t, 3/4) else none
      else
        if cueNearby cfg tokens i then some (t, 3/4) else some (t, 11/20)
    | none =>
      match aliasTicker? cfg tok with
      | some t => if keywordNearby cfg tokens i then some (t, 6/10) else none
      | none => none

/-- Modelled from the spec: the per-occurrence detections over a tokenised
post text, in order. -/
def rawDetections (cfg : DetectorConfig) (tokens : List String) :
    List (String × ℚ) :=
  (List.range tokens.length).filterMap fun i =>
    detectToken cfg tokens i (tokens.getD i "")

/-- Modelled from the spec: a Candidate Mention — symbol ticker, confidence in
[0,1], and the occurrence count within the text unit. -/
structure Candidate where
  ticker : String
  confidence : ℚ
  count : ℕ
deriving DecidableEq

/-- Modelled from the spec: multiple occurrences of the same ticker within one
text unit are merged into a single candidate carrying an occurrence count; the
merged confidence is the best per-occurrence confidence. -/
def mergeDetections (ds : List (String × ℚ)) : List Candidate :=
  (ds.map Prod.fst).dedup.map fun t =>
    { ticker := t
      confidence := ((ds.filter fun p => decide (p.1 = t)).map Prod.snd).foldl max 0
      count := (ds.filter fun p => decide (p.1 = t)).length }

/-- Modelled from the spec: the Detector pipeline — per-token detection, merge
of repeated occurrences, then the acceptance threshold (candidates below the
threshold are discarded, never surfaced). -/
def detectCandidates (cfg : DetectorConfig) (tokens : List String) :
    List Candidate :=
  (mergeDetections (rawDetections cfg tokens)).filter fun c =>
    decide (cfg.threshold ≤ c.confidence)

/-! ## Mention Aggregator (modelled from the spec, sections 3 and 4.4) -/

/-- Modelled from the spec: a Mention record — source post id, symbol ticker,
day of the source post (UTC day number), sentiment score, and occurrence count
within the post.  Mirrors the frontend `StockMention` view
(`frontend/src/types/index.ts` lines 53-64). -/
structure Mention where
  post_id : String
  ticker : String
  day : ℕ
  sentiment : ℚ
  occurrence_count : ℕ
deriving DecidableEq

/-- Modelled from the spec: build the Mention for one candidate of a post,
with the sentiment computed over the candidate's context. -/
def mkMention (pid : String) (day : ℕ) (cs : Candidate × ℚ) : Mention :=
  ⟨pid, cs.1.ticker, day, cs.2, cs.1.count⟩

/-- Modelled from the spec: the Mention Aggregator re-run on a post detects
and overwrites rather than duplicates — prior Mentions of the post are
replaced by the freshly derived ones. -/
def aggregatePost (pid : String) (day : ℕ) (cands : List (Candidate × ℚ))
    (store : List Mention) : List Mention :=
  (store.filter fun m => decide (m.post_id ≠ pid)) ++ cands.map (mkMention pid day)

/-- The (post id, symbol ticker) key of each stored Mention, in order. -/
def mentionKeys (store : List Mention) : List (String × String) :=
  store.map fun m => (m.post_id, m.ticker)

/-! ## Trend/Momentum Engine (modelled from the spec, section 4.5) -/

/-- Modelled from the spec: a DailyTrend row, one per (ticker, date). -/
structure DailyTrend where
  ticker : String
  date : ℕ
  mention_count : ℕ
  unique_post_count : ℕ
  avg_sentiment : ℚ
  momentum_score : ℚ
  volume_spike_pct : ℚ
deriving DecidableEq

/-- Modelled from the spec: the default EWMA decay factor, 0.3 per day. -/
def decayFactor : ℚ := 3/10

/-- Modelled from the spec: the default trailing window, W = 7 days. -/
def windowDays : ℕ := 7

/-- The Mentions of ticker `t` whose source post falls on day `d`. -/
def mentionsOn (ms : List Mention) (t : String) (d : ℕ) : List Mention :=
  ms.filter fun m => decide (m.ticker = t ∧ m.day = d)

/-- Modelled from the spec: the daily mention count recomputed from the
Mention source of truth. -/
def dailyCount (ms : List Mention) (t : String) (d : ℕ) : ℕ :=
  (mentionsOn ms t d).length

/-- The mention counts of the up-to-`windowDays` days preceding day `d`,
oldest first. -/
def precedingCounts (ms : List Mention) (t : String) (d : ℕ) : List ℕ :=
  ((List.range windowDays).filterMap fun k =>
    if k < d then some (dailyCount ms t (d - 1 - k)) else none).reverse

/-- Modelled from the spec: exponentially-weighted moving average with decay
`decayFactor` per day, folded oldest-to-newest from 0. -/
def ewma (counts : List ℕ) : ℚ :=
  counts.foldl (fun acc c => decayFactor * c + (1 - decayFactor) * acc) 0

/-- The EWMA baseline of a symbol's mention counts over the preceding days. -/
def ewmaBaseline (ms : List Mention) (t : String) (d : ℕ) : ℚ :=
  ewma (precedingCounts ms t d)

/-- Modelled from the spec: simple moving average of the preceding
`windowDays` days. -/
def smaBaseline (ms : List Mention) (t : String) (d : ℕ) : ℚ :=
  (((precedingCounts ms t d).map fun c => (c : ℚ)).sum) / windowDays

/-- Modelled from the spec, section 4.5:
`momentum = ((current_count - baseline) / max(baseline, 1)) * 100`. -/
def momentumScore (current : ℕ) (baseline : ℚ) : ℚ :=
  ((current - baseline) / max baseline 1) * 100

/-- Modelled from the spec, section 4.5:
`spike = ((current_count - sma) / max(sma, 1)) * 100`. -/
def spikePct (current : ℕ) (sma : ℚ) : ℚ :=
  ((current - sma) / max sma 1) * 100

/-- Modelled from the spec: recompute the DailyTrend row of `(t, d)` from the
Mention set alone. -/
def recomputeRow (ms : List Mention) (t : String) (d : ℕ) : DailyTrend :=
  { ticker := t
    date := d
    mention_count := dailyCount ms t d
    unique_post_count := (((mentionsOn ms t d).map fun m => m.post_id).dedup).length
    avg_sentiment :=
      if dailyCount ms t d = 0 then 0
      else (((mentionsOn ms t d).map fun m => m.sentiment).sum) / dailyCount ms t d
    momentum_score := momentumScore (dailyCount ms t d) (ewmaBaseline ms t d)
    volume_spike_pct := spikePct (dailyCount ms t d) (smaBaseline ms t d) }

/-- Modelled from the spec: one engine run over a date range
append/overwrites — rows of the range are recomputed from the Mentions and
replace any prior rows for the same (ticker, date) keys. -/
def runTrendEngine (ms : List Mention) (range : List (String × ℕ))
    (state : List DailyTrend) : List DailyTrend :=
  (state.filter fun r => decide ((r.ticker, r.date) ∉ range)) ++
    range.map fun p => recomputeRow ms p.1 p.2

/-- Modelled from the spec: the default spike-alert threshold, 50%; it matches
the frontend default `threshold = 50.0` of `ApiClient.getMomentumSpikes`
(`frontend/src/utils/api.ts` line 60). -/
def defaultSpikeThreshold : ℚ := 50

/-- Modelled from the spec: a spike alert fires for a row exactly when its
volume spike exceeds the threshold and its mention count exceeds the
minimum-mentions floor. -/
def spikeAlerts (threshold : ℚ) (minMentions : ℕ) (rows : List DailyTrend) :
    List DailyTrend :=
  rows.filter fun r =>
    decide (threshold < r.volume_spike_pct ∧ minMentions < r.mention_count)

/-- Modelled from the spec: the fields the trending ranking orders by. -/
@[ext]
structure TrendEntry where
  ticker : String
  momentum_score : ℚ
  mention_count : ℕ
deriving DecidableEq

/-- Modelled from the spec: the trending order — momentum_score descending,
ties by mention_count descending, remaining ties alphabetically by ticker. -/
def trendOrder (a b : TrendEntry) : Prop :=
  b.momentum_score < a.momentum_score ∨
    (a.momentum_score = b.momentum_score ∧
      (b.mention_count < a.mention_count ∨
        (a.mention_count = b.mention_count ∧ a.ticker ≤ b.ticker)))

instance : DecidableRel trendOrder := fun a b => by
  unfold trendOrder
  infer_instance

instance : IsTotal TrendEntry trendOrder := by
  constructor
  intro a b
  unfold trendOrder
  rcases lt_trichotomy a.momentum_score b.momentum_score with h | h | h
  · exact Or.inr (Or.inl h)
  · rcases lt_trichotomy a.mention_count b.mention_count with h' | h' | h'
    · exact Or.inr (Or.inr ⟨h.symm, Or.inl h'⟩)
    · rcases le_total a.ticker b.ticker with h'' | h''
      · exact Or.inl (Or.inr ⟨h, Or.inr ⟨h', h''⟩⟩)
      · exact Or.inr (Or.inr ⟨h.symm, Or.inr ⟨h'.symm, h''⟩⟩)
    · exact Or.inl (Or.inr ⟨h, Or.inl h'⟩)
  · exact Or.inl (Or.inl h)

instance : IsTrans TrendEntry trendOrder := by
  constructor
  intro a b c hab hbc
  unfold trendOrder at hab hbc ⊢
  rcases hab with h1 | ⟨e1, h1⟩
  · rcases hbc with h2 | ⟨e2, h2⟩
    · exact Or.inl (lt_trans h2 h1)
    · exact Or.inl (e2 ▸ h1)
  · rcases hbc with h2 | ⟨e2, h2⟩
    · refine Or.inl ?_
      rw [e1]
      exact h2
    · refine Or.inr ⟨e1.trans e2, ?_⟩
      rcases h1 with h1 | ⟨f1, h1⟩
      · rcases h2 with h2 | ⟨f2, h2⟩
        · exact Or.inl (lt_trans h2 h1)
        · exact Or.inl (f2 ▸ h1)
      · rcases h2 with h2 | ⟨f2, h2⟩
        · refine Or.inl ?_
          rw [f1]
          exact h2
        · exact Or.inr ⟨f1.trans f2, le_trans h1 h2⟩

instance : IsAntisymm TrendEntry trendOrder := by
  constructor
  intro a b hab hba
  unfold trendOrder at hab hba
  rcases hab with h1 | ⟨e1, h1⟩
  · rcases hba with h2 | ⟨e2, h2⟩
    · exact absurd h1 (lt_asymm h2)
    · rw [e2] at h1
      exact absurd h1 (lt_irrefl _)
  · rcases hba with h2 | ⟨e2, h2⟩
    · rw [e1] at h2
      exact absurd h2 (lt_irrefl _)
    · rcases h1 with h1 | ⟨f1, h1⟩
      · rcases h2 with h2 | ⟨f2, h2⟩
        · exact absurd h1 (lt_asymm h2)
        · rw [f2] at h1
          exact absurd h1 (lt_irrefl _)
      · rcases h2 with h2 | ⟨f2, h2⟩
        · rw [f1] at h2
          exact absurd h2 (lt_irrefl _)
        · exact TrendEntry.ext (le_antisymm h1 h2) e1 f1

/-- Modelled from the spec: the ranked trending output. -/
def rankTrending (l : List TrendEntry) : List TrendEntry :=
  l.insertionSort trendOrder

/-! ## Shared lemmas -/

theorem init_le_foldl_max (l : List ℚ) (init : ℚ) : init ≤ l.foldl max init := by
  induction l generalizing init with
  | nil => exact le_rfl
  | cons a t ih => exact le_trans (le_max_left _ _) (ih _)

theorem le_foldl_max (l : List ℚ) (init x : ℚ) : x ∈ l → x ≤ l.foldl max init := by
  induction l generalizing init with
  | nil => exact fun hx => absurd hx (List.not_mem_nil x)
  | cons a t ih =>
      intro hx
      rcases List.mem_cons.mp hx with rfl | hx'
      · exact le_trans (le_max_right init x) (init_le_foldl_max t _)
      · exact ih _ hx'

theorem foldl_ewma_nonneg (counts : List ℕ) :
    ∀ acc : ℚ, 0 ≤ acc →
      0 ≤ counts.foldl (fun acc c => decayFactor * c + (1 - decayFactor) * acc) acc := by
  induction counts with
  | nil => exact fun acc h => h
  | cons c cs ih =>
      intro acc h
      refine ih _ (add_nonneg (mul_nonneg ?_ (Nat.cast_nonneg c)) (mul_nonneg ?_ h)) <;>
        norm_num [decayFactor]

theorem ewmaBaseline_nonneg (ms : List Mention) (t : String) (d : ℕ) :
    0 ≤ ewmaBaseline ms t d :=
  foldl_ewma_nonneg _ 0 le_rfl

theorem mergeDetections_ticker_mem (ds : List (String × ℚ)) (c : Candidate)
    (hc : c ∈ mergeDetections ds) : c.ticker ∈ ds.map Prod.fst := by
  rcases List.mem_map.mp hc with ⟨t, ht, rfl⟩
  exact List.mem_dedup.mp ht

theorem mergeDetections_spec (ds : List (String × ℚ)) (c : Candidate)
    (hc : c ∈ mergeDetections ds) :
    c.confidence = ((ds.filter fun p => decide (p.1 = c.ticker)).map Prod.snd).foldl max 0 ∧
    c.count = (ds.filter fun p => decide (p.1 = c.ticker)).length := by
  rcases List.mem_map.mp hc with ⟨t, ht, rfl⟩
  exact ⟨rfl, rfl⟩

theorem mergeDetections_tickers_nodup (ds : List (String × ℚ)) :
    ((mergeDetections ds).map fun c => c.ticker).Nodup := by
  unfold mergeDetections
  rw [List.map_map]
  simpa [Function.comp_def] using List.nodup_dedup (ds.map Prod.fst)

theorem detectCandidates_tickers_nodup (cfg : DetectorConfig) (tokens : List String) :
    ((detectCandidates cfg tokens).map fun c => c.ticker).Nodup :=
  List.Nodup.sublist ((List.filter_sublist _).map _) (mergeDetections_tickers_nodup _)

theorem nine_tenths_le_cashtag_conf : (9 : ℚ)/10 ≤ 95/100 := by norm_num

theorem defaultConfig_threshold_le : defaultConfig.threshold ≤ 9/10 := by
  norm_num [defaultConfig]

theorem fifty_lt_onefifty : (50 : ℚ) < 150 := by norm_num

theorem fifty_le_default_threshold : (50 : ℚ) ≤ defaultSpikeThreshold := by
  norm_num [defaultSpikeThreshold]

/-! ## Claim theorems -/

/-- C5: for every stored sentiment score `x`, the displayed classification is
Neutral exactly when `x` lies in the dead-zone `-0.1 ≤ x ≤ 0.1`, Positive when
`x > 0.1`, and Negative when `x < -0.1` (the score itself is a raw number; the
label is derived for display only). -/
theorem sentiment_classification (x : ℚ) :
    (formatSentiment x = "Neutral" ↔ -(1/10) ≤ x ∧ x ≤ 1/10) ∧
    (formatSentiment x = "Positive" ↔ 1/10 < x) ∧
    (formatSentiment x = "Negative" ↔ x < -(1/10)) := by
  unfold formatSentiment
  split_ifs with h1 h2
  · refine ⟨iff_of_false (by decide) ?_, iff_of_true rfl h1, iff_of_false (by decide) ?_⟩
    · rintro ⟨-, h⟩
      exact absurd h1 (not_lt.mpr h)
    · intro h
      linarith
  · refine ⟨iff_of_false (by decide) ?_, iff_of_false (by decide) h1, iff_of_true rfl h2⟩
    rintro ⟨h, -⟩
    exact absurd h2 (not_lt.mpr h)
  · exact ⟨iff_of_true rfl ⟨not_lt.mp h2, not_lt.mp h1⟩,
      iff_of_false (by decide) h1, iff_of_false (by decide) h2⟩

/-- C9: for each of the four `TimeRange` values, `timeRangeToDays` returns 1,
3, 7 and 30 respectively — the same number as the `days` field of the
`timeRanges` entry whose `value` field equals that range, so the selector's
labels and the API query parameter always agree. -/
theorem timeRange_days_agree :
    ((timeRanges.map fun o => timeRangeToDays o.value) = timeRanges.map fun o => o.days) ∧
    (∃ o ∈ timeRanges, o.value = TimeRange.d1 ∧ o.days = 1 ∧ timeRangeToDays TimeRange.d1 = 1) ∧
    (∃ o ∈ timeRanges, o.value = TimeRange.d3 ∧ o.days = 3 ∧ timeRangeToDays TimeRange.d3 = 3) ∧
    (∃ o ∈ timeRanges, o.value = TimeRange.d7 ∧ o.days = 7 ∧ timeRangeToDays TimeRange.d7 = 7) ∧
    (∃ o ∈ timeRanges, o.value = TimeRange.d30 ∧ o.days = 30 ∧
      timeRangeToDays TimeRange.d30 = 30) := by
  decide

/-- C10 (counterexample): a non-ok response whose JSON body contains the
`detail` field `""` is reported with the `HTTP {status}: {statusText}` message
rather than with the (empty) `detail` — JavaScript `||` treats the empty
string as falsy, so the claim as stated fails on this response. -/
theorem request_empty_detail_counterexample :
    (HttpResponse.mk false 500 "Internal Server Error" (some ⟨some ""⟩)).ok = false ∧
    (HttpResponse.mk false 500 "Internal Server Error" (some ⟨some ""⟩)).jsonBody =
      some ⟨some ""⟩ ∧
    ApiClient.request (HttpResponse.mk false 500 "Internal Server Error" (some ⟨some ""⟩)) =
      Except.error "HTTP 500: Internal Server Error" ∧
    "HTTP 500: Internal Server Error" ≠ "" :=
  ⟨rfl, rfl, rfl, by decide⟩

/-- C10 (amended): `ApiClient.request` returns the parsed JSON body when
`response.ok` is true, and fails exactly when `response.ok` is false, with
message equal to the body's `detail` field when the body is JSON containing a
non-empty `detail`, and otherwise `HTTP {status}: {statusText}`. -/
theorem request_behaviour (r : HttpResponse) :
    (r.ok = true → ∀ b, r.jsonBody = some b → ApiClient.request r = Except.ok b) ∧
    (r.ok = false → ∀ d, r.jsonBody = some ⟨some d⟩ → d ≠ "" →
      ApiClient.request r = Except.error d) ∧
    (r.ok = false →
      (r.jsonBody = none ∨ r.jsonBody = some ⟨none⟩ ∨ r.jsonBody = some ⟨some ""⟩) →
      ApiClient.request r = Except.error (httpErrorText r)) := by
  obtain ⟨ok, st, stx, jb⟩ := r
  refine ⟨?_, ?_, ?_⟩
  · rintro rfl b rfl
    rfl
  · rintro rfl d rfl hd
    simp [ApiClient.request, hd]
  · rintro rfl h
    rcases h with h | h | h <;> subst h <;> rfl

/-- C10 (witness): the three behaviours at concrete responses. -/
theorem request_behaviour_witness :
    ApiClient.request ⟨true, 200, "OK", some ⟨none⟩⟩ = Except.ok ⟨none⟩ ∧
    ApiClient.request ⟨false, 404, "Not Found", some ⟨some "boom"⟩⟩ = Except.error "boom" ∧
    ApiClient.request ⟨false, 500, "Oops", none⟩ =
      Except.error (httpErrorText ⟨false, 500, "Oops", none⟩) :=
  ⟨(request_behaviour _).1 rfl _ rfl,
   (request_behaviour _).2.1 rfl "boom" rfl (by decide),
   (request_behaviour _).2.2 rfl (Or.inl rfl)⟩

/-- C6: a spike alert fires for a row exactly when its volume spike percentage
exceeds the threshold (default 50) and its mention count exceeds the
minimum-mentions floor; a spike not exceeding the default 50% threshold is
never surfaced. -/
theorem spike_alert_iff (threshold : ℚ) (minMentions : ℕ) (rows : List DailyTrend)
    (r : DailyTrend) :
    (r ∈ spikeAlerts threshold minMentions rows ↔
      r ∈ rows ∧ threshold < r.volume_spike_pct ∧ minMentions < r.mention_count) ∧
    defaultSpikeThreshold = 50 ∧
    (r.volume_spike_pct ≤ defaultSpikeThreshold →
      r ∉ spikeAlerts defaultSpikeThreshold minMentions rows) := by
  refine ⟨?_, rfl, ?_⟩
  · simp [spikeAlerts, List.mem_filter, and_assoc]
  · intro hle hmem
    have hp := (List.mem_filter.mp hmem).2
    exact absurd (of_decide_eq_true hp).1 (not_lt.mpr hle)

/-- C6 (witness): the spec scenario — a 150% spike on 25 mentions fires at the
default threshold, while a row at exactly 50% does not. -/
theorem spike_alert_iff_witness :
    (⟨"GME", 8, 25, 10, 0, 150, 150⟩ : DailyTrend) ∈
      spikeAlerts 50 5 [⟨"GME", 8, 25, 10, 0, 150, 150⟩] ∧
    (⟨"TWO", 9, 25, 10, 0, 0, 50⟩ : DailyTrend) ∉
      spikeAlerts defaultSpikeThreshold 5 [⟨"TWO", 9, 25, 10, 0, 0, 50⟩] :=
  ⟨(spike_alert_iff 50 5 _ _).1.mpr
      ⟨List.mem_singleton_self _, fifty_lt_onefifty, by decide⟩,
   (spike_alert_iff defaultSpikeThreshold 5 _ _).2.2 fifty_le_default_threshold⟩

/-- C2: the Trend/Momentum Engine is idempotent — a second run over the same
Mention data and the same date range leaves the DailyTrend rows identical,
because every row of the range is recomputed from the Mention source of truth
and overwrites any previous row for its (ticker, date) key. -/
theorem trend_engine_idempotent (ms : List Mention) (range : List (String × ℕ))
    (state : List DailyTrend) :
    runTrendEngine ms range (runTrendEngine ms range state) =
      runTrendEngine ms range state := by
  unfold runTrendEngine
  rw [List.filter_append]
  have h1 : (state.filter fun r => decide ((r.ticker, r.date) ∉ range)).filter
      (fun r => decide ((r.ticker, r.date) ∉ range)) =
      state.filter fun r => decide ((r.ticker, r.date) ∉ range) := by
    rw [List.filter_filter]
    exact List.filter_congr fun a _ => Bool.and_self _
  have h2 : ((range.map fun p => recomputeRow ms p.1 p.2).filter
      fun r => decide ((r.ticker, r.date) ∉ range)) = [] := by
    rw [List.filter_eq_nil_iff]
    intro r hr
    rcases List.mem_map.mp hr with ⟨p, hp, rfl⟩
    simp [recomputeRow]
    exact hp
  rw [h1, h2, List.append_nil]

/-- C1: for every trend computation the EWMA baseline is non-negative, the
momentum score equals `((current_count - baseline) / max(baseline, 1)) * 100`,
and the divisor `max(baseline, 1)` is strictly positive — the division is by a
non-zero quantity, so the score is a finite rational (no NaN or infinity),
including when the baseline is 0, where the score is `current_count * 100` (in
particular `momentumScore 5 0 = 500`, the brand-new-symbol scenario). -/
theorem momentum_formula_finite (ms : List Mention) (t : String) (d : ℕ) :
    0 ≤ ewmaBaseline ms t d ∧
    (recomputeRow ms t d).momentum_score =
      (((dailyCount ms t d : ℚ) - ewmaBaseline ms t d) /
        max (ewmaBaseline ms t d) 1) * 100 ∧
    0 < max (ewmaBaseline ms t d) 1 ∧
    max (ewmaBaseline ms t d) 1 * (recomputeRow ms t d).momentum_score =
      ((dailyCount ms t d : ℚ) - ewmaBaseline ms t d) * 100 ∧
    (∀ current : ℕ, momentumScore current 0 = current * 100) ∧
    momentumScore 5 0 = 500 := by
  have hpos : (0 : ℚ) < max (ewmaBaseline ms t d) 1 :=
    lt_of_lt_of_le one_pos (le_max_right _ _)
  have hne : max (ewmaBaseline ms t d) 1 ≠ 0 := ne_of_gt hpos
  have hzero : ∀ current : ℕ, momentumScore current 0 = current * 100 := by
    intro current
    unfold momentumScore
    rw [max_eq_right (by norm_num : (0:ℚ) ≤ 1)]
    ring
  refine ⟨ewmaBaseline_nonneg ms t d, rfl, hpos, ?_, hzero, ?_⟩
  · show max (ewmaBaseline ms t d) 1 *
        (((dailyCount ms t d : ℚ) - ewmaBaseline ms t d) /
          max (ewmaBaseline ms t d) 1 * 100) = _
    field_simp
  · rw [hzero 5]
    norm_num

/-- C3: for every tokenised post text containing a cashtag token — `$`
immediately followed by 1-5 letters — the Detector returns a candidate for
that ticker with confidence at least 0.9, regardless of the denylist (the
configuration, and so its denylist, is arbitrary; the acceptance threshold is
at most 0.9, which covers its 0.5 default). -/
theorem cashtag_high_confidence (cfg : DetectorConfig) (tokens : List String)
    (i : ℕ) (t : String)
    (hth : cfg.threshold ≤ 9/10)
    (hi : i < tokens.length)
    (hc : cashtagTicker? (tokens.getD i "") = some t) :
    ∃ c ∈ detectCandidates cfg tokens, c.ticker = t ∧ (9 : ℚ)/10 ≤ c.confidence := by
  have hdet : detectToken cfg tokens i (tokens.getD i "") = some (t, 95/100) := by
    unfold detectToken
    rw [hc]
  have hmem : (t, (95 : ℚ)/100) ∈ rawDetections cfg tokens :=
    List.mem_filterMap.mpr ⟨i, List.mem_range.mpr hi, hdet⟩
  have ht : t ∈ ((rawDetections cfg tokens).map Prod.fst).dedup :=
    List.mem_dedup.mpr (List.mem_map.mpr ⟨(t, 95/100), hmem, rfl⟩)
  have hmerge :
      (⟨t, (((rawDetections cfg tokens).filter fun p => decide (p.1 = t)).map
          Prod.snd).foldl max 0,
        ((rawDetections cfg tokens).filter fun p => decide (p.1 = t)).length⟩ :
        Candidate) ∈ mergeDetections (rawDetections cfg tokens) :=
    List.mem_map.mpr ⟨t, ht, rfl⟩
  have hfil : (t, (95 : ℚ)/100) ∈
      (rawDetections cfg tokens).filter fun p => decide (p.1 = t) :=
    List.mem_filter.mpr ⟨hmem, by simp⟩
  have hconf : (95 : ℚ)/100 ≤ (((rawDetections cfg tokens).filter
      fun p => decide (p.1 = t)).map Prod.snd).foldl max 0 :=
    le_foldl_max _ 0 _ (List.mem_map.mpr ⟨(t, 95/100), hfil, rfl⟩)
  have h910 : (9 : ℚ)/10 ≤ (((rawDetections cfg tokens).filter
      fun p => decide (p.1 = t)).map Prod.snd).foldl max 0 :=
    le_trans nine_tenths_le_cashtag_conf hconf
  refine ⟨_, List.mem_filter.mpr ⟨hmerge, decide_eq_true (le_trans hth h910)⟩, rfl, h910⟩

/-- C3 (witness): the spec scenario — the post
`I just bought $GME calls, to the moon!` yields a `GME` candidate with
confidence at least 0.9 under the default configuration. -/
theorem cashtag_high_confidence_witness :
    ∃ c ∈ detectCandidates defaultConfig
        ["I", "just", "bought", "$GME", "calls", "to", "the", "moon"],
      c.ticker = "GME" ∧ (9 : ℚ)/10 ≤ c.confidence :=
  cashtag_high_confidence defaultConfig _ 3 "GME" defaultConfig_threshold_le
    (by decide) (by decide)

/-- C8: the trending output is fully deterministic — the ranked list is sorted
by momentum_score descending, ties broken by mention_count descending and then
alphabetically by ticker; it is a permutation of its input, and any two runs
over the same data (the same multiset of entries, in any order) produce the
identical list. -/
theorem trending_rank_deterministic (l l' : List TrendEntry) (h : l.Perm l') :
    List.Sorted trendOrder (rankTrending l) ∧
    (rankTrending l).Perm l ∧
    rankTrending l = rankTrending l' := by
  refine ⟨List.sorted_insertionSort trendOrder l, List.perm_insertionSort trendOrder l, ?_⟩
  exact List.eq_of_perm_of_sorted
    ((List.perm_insertionSort trendOrder l).trans
      (h.trans (List.perm_insertionSort trendOrder l').symm))
    (List.sorted_insertionSort trendOrder l)
    (List.sorted_insertionSort trendOrder l')

/-- C8 (witness): two symbols tied at momentum 100 and equal mention counts —
the ranking of the two presentation orders is sorted, a permutation of the
input, and identical for both, so the tie resolves deterministically. -/
theorem trending_rank_deterministic_witness :
    List.Sorted trendOrder (rankTrending [⟨"AMC", 100, 5⟩, ⟨"AAPL", 100, 5⟩]) ∧
    (rankTrending [⟨"AMC", 100, 5⟩, ⟨"AAPL", 100, 5⟩]).Perm
      [⟨"AMC", 100, 5⟩, ⟨"AAPL", 100, 5⟩] ∧
    rankTrending [⟨"AMC", 100, 5⟩, ⟨"AAPL", 100, 5⟩] =
      rankTrending [⟨"AAPL", 100, 5⟩, ⟨"AMC", 100, 5⟩] :=
  trending_rank_deterministic _ _ (by decide)

theorem detectToken_eq_some_cases (cfg : DetectorConfig) (tokens : List String)
    (i : ℕ) (tok t : String) (q : ℚ)
    (h : detectToken cfg tokens i tok = some (t, q)) :
    cashtagTicker? tok = some t ∨
    (bareTicker? tok = some t ∧
      (cueNearby cfg tokens i = true ∨ t ∉ cfg.denylist)) ∨
    (aliasTicker? cfg tok = some t ∧ keywordNearby cfg tokens i = true) := by
  unfold detectToken at h
  split at h
  next t2 heq =>
    have h2 : t2 = t := congrArg Prod.fst (Option.some.inj h)
    exact Or.inl (h2 ▸ heq)
  next heq =>
    split at h
    next t3 heq2 =>
      split at h
      next hden =>
        split at h
        next hcue =>
          have h3 : t3 = t := congrArg Prod.fst (Option.some.inj h)
          exact Or.inr (Or.inl ⟨h3 ▸ heq2, Or.inl hcue⟩)
        next hcue => exact Option.noConfusion h
      next hden =>
        split at h
        next hcue =>
          have h3 : t3 = t := congrArg Prod.fst (Option.some.inj h)
          exact Or.inr (Or.inl ⟨h3 ▸ heq2, Or.inr (h3 ▸ hden)⟩)
        next hcue =>
          have h3 : t3 = t := congrArg Prod.fst (Option.some.inj h)
          exact Or.inr (Or.inl ⟨h3 ▸ heq2, Or.inr (h3 ▸ hden)⟩)
    next heq2 =>
      split at h
      next t4 heq3 =>
        split at h
        next hkw =>
          have h4 : t4 = t := congrArg Prod.fst (Option.some.inj h)
          exact Or.inr (Or.inr ⟨h4 ▸ heq3, hkw⟩)
        next hkw => exact Option.noConfusion h
      next heq3 => exact Option.noConfusion h

/-- C7: if a denylisted ticker is never written as a cashtag, every bare
(non-cashtag) token occurrence of it has no finance-context keyword and no
company-name alias within the word window around it, and no free-text alias
occurrence resolving to it has a finance-context keyword in its own window
(the Detector's only remaining recognition path for a denylisted ticker, spec
sections 4.1 and 4.2 step 3), then the Detector produces no candidate for
that ticker. -/
theorem denylisted_bare_no_cue_no_candidate (cfg : DetectorConfig)
    (tokens : List String) (t : String)
    (hd : t ∈ cfg.denylist)
    (hnocash : ∀ i, i < tokens.length → cashtagTicker? (tokens.getD i "") ≠ some t)
    (hnocue : ∀ i, i < tokens.length → bareTicker? (tokens.getD i "") = some t →
      cueNearby cfg tokens i = false)
    (hnoalias : ∀ i, i < tokens.length → aliasTicker? cfg (tokens.getD i "") = some t →
      keywordNearby cfg tokens i = false) :
    ∀ c ∈ detectCandidates cfg tokens, c.ticker ≠ t := by
  intro c hc hct
  have hmerge := (List.mem_filter.mp hc).1
  have htk := mergeDetections_ticker_mem _ _ hmerge
  rw [hct] at htk
  rcases List.mem_map.mp htk with ⟨pq, hmem, hfst⟩
  rcases List.mem_filterMap.mp hmem with ⟨i, hir, hdet⟩
  have hi := List.mem_range.mp hir
  obtain ⟨t', q⟩ := pq
  cases hfst
  rcases detectToken_eq_some_cases cfg tokens i _ _ _ hdet with
    hcash | ⟨hbare, hrest⟩ | ⟨halias, hkw⟩
  · exact hnocash i hi hcash
  · rcases hrest with hcue | hden
    · rw [hnocue i hi hbare] at hcue
      exact Bool.false_ne_true hcue
    · exact hden hd
  · rw [hnoalias i hi halias] at hkw
    exact Bool.false_ne_true hkw

/-- C7 (witness): `ALL` is a valid ticker (Allstate) on the denylist; in
`I like ALL of it` it occurs only as a bare token, with no finance keyword or
alias cue in the window and no free-text alias occurrence, so no `ALL`
candidate is produced. -/
theorem denylisted_bare_no_cue_no_candidate_witness :
    ((detectCandidates defaultConfig ["I", "like", "ALL", "of", "it"]).all
      fun c => decide (c.ticker ≠ "ALL")) = true := by
  rw [List.all_eq_true]
  intro c hc
  exact decide_eq_true
    (denylisted_bare_no_cue_no_candidate defaultConfig _ "ALL" (by decide)
      (by decide) (by decide) (by decide) c hc)

theorem aggregatePost_rerun (pid : String) (day : ℕ) (cands : List (Candidate × ℚ))
    (store : List Mention) :
    aggregatePost pid day cands (aggregatePost pid day cands store) =
      aggregatePost pid day cands store := by
  unfold aggregatePost
  rw [List.filter_append]
  have h1 : ((store.filter fun m => decide (m.post_id ≠ pid)).filter
      fun m => decide (m.post_id ≠ pid)) =
      store.filter fun m => decide (m.post_id ≠ pid) := by
    rw [List.filter_filter]
    exact List.filter_congr fun a _ => Bool.and_self _
  have h2 : ((cands.map (mkMention pid day)).filter
      fun m => decide (m.post_id ≠ pid)) = [] := by
    rw [List.filter_eq_nil_iff]
    intro m hm
    rcases List.mem_map.mp hm with ⟨cs, hcs, rfl⟩
    simp [mkMention]
  rw [h1, h2, List.append_nil]

theorem aggregatePost_keys_nodup (pid : String) (day : ℕ)
    (cands : List (Candidate × ℚ)) (store : List Mention)
    (h : (mentionKeys store).Nodup)
    (hc : (cands.map fun cs => cs.1.ticker).Nodup) :
    (mentionKeys (aggregatePost pid day cands store)).Nodup := by
  unfold aggregatePost mentionKeys
  rw [List.map_append]
  refine List.Nodup.append ?_ ?_ ?_
  · exact List.Nodup.sublist ((List.filter_sublist store).map _) h
  · rw [List.map_map]
    have hcomp : ((fun m : Mention => (m.post_id, m.ticker)) ∘ mkMention pid day) =
        (fun s => (pid, s)) ∘ fun cs : Candidate × ℚ => cs.1.ticker := rfl
    rw [hcomp, ← List.map_map]
    exact List.Nodup.map (fun a b hab => congrArg Prod.snd hab) hc
  · intro k hk1 hk2
    rcases List.mem_map.mp hk1 with ⟨m, hm, rfl⟩
    rcases List.mem_filter.mp hm with ⟨-, hp⟩
    have hne : m.post_id ≠ pid := of_decide_eq_true hp
    rw [List.map_map] at hk2
    rcases List.mem_map.mp hk2 with ⟨cs, -, heq⟩
    exact hne (congrArg Prod.fst heq).symm

/-- C4: aggregating a post over the Detector's candidates preserves the
at-most-one-Mention-per-(post id, ticker) invariant; re-running aggregation on
an already-processed post is a no-op for the stored Mentions; and repeated
occurrences of a ticker within the post appear as the single candidate's
occurrence count (the number of raw per-occurrence detections of that ticker)
rather than as duplicate records. -/
theorem mention_uniqueness_rerun (cfg : DetectorConfig) (tokens : List String)
    (pid : String) (day : ℕ) (sent : Candidate → ℚ) (store : List Mention)
    (h : (mentionKeys store).Nodup) :
    (mentionKeys (aggregatePost pid day
        ((detectCandidates cfg tokens).map fun c => (c, sent c)) store)).Nodup ∧
    aggregatePost pid day ((detectCandidates cfg tokens).map fun c => (c, sent c))
        (aggregatePost pid day
          ((detectCandidates cfg tokens).map fun c => (c, sent c)) store) =
      aggregatePost pid day
        ((detectCandidates cfg tokens).map fun c => (c, sent c)) store ∧
    ∀ c ∈ detectCandidates cfg tokens,
      c.count = ((rawDetections cfg tokens).filter
        fun p => decide (p.1 = c.ticker)).length := by
  refine ⟨?_, aggregatePost_rerun _ _ _ _, ?_⟩
  · refine aggregatePost_keys_nodup _ _ _ _ h ?_
    rw [List.map_map]
    exact detectCandidates_tickers_nodup cfg tokens
  · intro c hc
    exact (mergeDetections_spec _ _ (List.mem_filter.mp hc).1).2

/-- C4 (witness): the post `&#36;GME stock &#36;GME` mentions GME twice; aggregation
into an empty store yields unique (post, ticker) keys, re-running it changes
nothing, and the GME candidate carries occurrence count 2. -/
theorem mention_uniqueness_rerun_witness :
    (mentionKeys (aggregatePost "p1" 0
        ((detectCandidates defaultConfig ["$GME", "stock", "$GME"]).map
          fun c => (c, (1 : ℚ)/2)) [])).Nodup ∧
    aggregatePost "p1" 0 ((detectCandidates defaultConfig ["$GME", "stock", "$GME"]).map
          fun c => (c, (1 : ℚ)/2))
        (aggregatePost "p1" 0 ((detectCandidates defaultConfig ["$GME", "stock", "$GME"]).map
          fun c => (c, (1 : ℚ)/2)) []) =
      aggregatePost "p1" 0 ((detectCandidates defaultConfig ["$GME", "stock", "$GME"]).map
          fun c => (c, (1 : ℚ)/2)) [] ∧
    ∀ c ∈ detectCandidates defaultConfig ["$GME", "stock", "$GME"],
      c.count = ((rawDetections defaultConfig ["$GME", "stock", "$GME"]).filter
        fun p => decide (p.1 = c.ticker)).length :=
  mention_uniqueness_rerun defaultConfig _ "p1" 0 (fun _ => 1/2) [] (by decide)
